import Mathlib

/-!
Verification development for the task-master-copilot repository.

The repository is a Node.js CLI that keeps a JSON task store (`tasks.json`)
and a context/history document (`context.json`).  The definitions below are a
shallow embedding of the JavaScript in `scripts/task-master/`:

* `context-tracker.js` : `addHistoryEntry`, `updateTaskStatus`, `getNextTask`,
  `updateContextAfterTaskCompletion`;
* `complete.js`        : `completeTaskWithContextUpdate`, `startTaskExecution`;
* `copilot.js`         : `getNextTask` (string-priority variant),
  `getCurrentTask`, `startNextTask`;
* `chat.js`            : `getNextTaskId`, `checkTaskCompletion`, the subtask-id
  scheme of `generateTasksFromPlan`.

Modelling conventions:
* JavaScript numbers appearing in id positions are modelled as `Option Int`
  (`none` plays the role of `NaN`, produced by `parseInt` on a non-numeric
  token); strict equality `===` is modelled by `jsStrictEq` on a small value
  type, so that `NaN === x` is `false` and `"s" === n` is `false`, as in JS.
* File I/O (`loadTasks`/`saveTasks`/`loadContext`/`saveContext`) is modelled
  as state threading through a `State` value holding both documents; a save
  always succeeds.  Because every mutation in the source is saved before the
  next load, threading the state is observationally equivalent.
* `new Date().toISOString()` is modelled by an explicit `now : String`
  parameter.
* `Array.prototype.sort(cmp)` is stable (ECMAScript 2019) and a comparator
  returning `NaN` is coerced to `+0`; it is modelled by `List.mergeSort` with
  `le a b := cmp a b ≤ 0` where the `NaN` result is replaced by `0`.
-/

namespace TaskMaster

/-- Task/subtask status strings: `pending`, `in-progress`, `done`, `deferred`. -/
inductive Status where
  | pending
  | inProgress
  | done
  | deferred
deriving DecidableEq, Repr

/-- A subtask record: `{ id: "<parentId>.<ordinal>", title, status }`. -/
structure Subtask where
  id : String
  title : String
  status : Status
deriving DecidableEq, Repr

/-- A task record of `tasks.json`. -/
structure Task where
  id : Int
  title : String
  description : String
  status : Status
  priority : Int
  subtasks : List Subtask
  createdAt : String
  updatedAt : String
deriving DecidableEq, Repr

/-- Root document of `tasks.json`. -/
structure TasksData where
  project : String
  version : String
  tasks : List Task
deriving DecidableEq, Repr

/-- The `details` map of a history entry (`{ oldStatus, newStatus }`, both
absent for the default `{}`). -/
structure HistoryDetails where
  oldStatus : Option Status := none
  newStatus : Option Status := none
deriving DecidableEq, Repr

/-- A JavaScript number in an id position: `none` is `NaN`. -/
abbrev JSNum := Option Int

/-- A JavaScript value, as far as the compared shapes go. -/
inductive JSVal where
  | num (n : Int)
  | nan
  | str (s : String)
deriving DecidableEq, Repr

/-- JavaScript strict equality `===` on the modelled values: values of
different types are never equal, and `NaN` is not equal to anything
(including itself). -/
def jsStrictEq : JSVal → JSVal → Bool
  | .num a, .num b => a == b
  | .str a, .str b => a == b
  | _, _ => false

/-- Embed a possibly-`NaN` number into `JSVal`. -/
def jsNumVal : JSNum → JSVal
  | some n => .num n
  | none => .nan

/-- `t.id === x` for a stored (non-`NaN`) id `t.id` and a possibly-`NaN` `x`. -/
def jsNumEq (a : Int) (b : JSNum) : Bool :=
  jsStrictEq (.num a) (jsNumVal b)

/-- Leading decimal digits of a character list; `none` when no digit has been
seen yet (so `parseInt` of a digit-free token is `NaN`). -/
def parseDigits : List Char → Option Nat → Option Nat
  | [], acc => acc
  | c :: cs, acc =>
    if c.isDigit then parseDigits cs (some ((acc.getD 0) * 10 + (c.toNat - 48)))
    else acc

/-- JavaScript `parseInt` on the decimal tokens this store uses: skip leading
whitespace, optional sign, then the longest prefix of decimal digits; `NaN`
(`none`) when that prefix is empty. -/
def jsParseInt (s : String) : JSNum :=
  match s.toList.dropWhile Char.isWhitespace with
  | '-' :: rest => (parseDigits rest none).map (fun n => -(n : Int))
  | '+' :: rest => (parseDigits rest none).map (fun n => (n : Int))
  | cs => (parseDigits cs none).map (fun n => (n : Int))

/-- JavaScript `taskId.includes('.')`. -/
def jsIncludesDot (s : String) : Bool :=
  s.toList.contains '.'

/-- Split a character list at `'.'`, with `"a.b".split('.') = ["a","b"]`
semantics (an empty string yields one empty segment). -/
def splitDotChars : List Char → List (List Char)
  | [] => [[]]
  | c :: cs =>
    if c = '.' then [] :: splitDotChars cs
    else
      match splitDotChars cs with
      | [] => [[c]]
      | p :: ps => (c :: p) :: ps

/-- JavaScript `taskId.split('.')`. -/
def jsSplitDot (s : String) : List String :=
  (splitDotChars s.toList).map (fun cs => String.mk cs)

/-- Render a JS number into a template literal (`NaN` prints as `"NaN"`). -/
def jsNumToString : JSNum → String
  | some n => toString n
  | none => "NaN"

/-- In-place mutation of the first array element matching a predicate, as done
by `array.find(p)` followed by assignments to the found object (or by
`findIndex` + index assignment). -/
def updateFirst (p : α → Bool) (f : α → α) : List α → List α
  | [] => []
  | x :: xs => if p x then f x :: xs else x :: updateFirst p f xs

/-- A history entry of `context.json` (`context-tracker.js`, `addHistoryEntry`). -/
structure HistoryEntry where
  taskId : JSNum
  taskTitle : String
  action : String
  summary : String
  timestamp : String
  details : HistoryDetails
deriving DecidableEq, Repr

/-- `currentContext` of `context.json`. -/
structure CurrentContext where
  activeTask : Option Int
  summary : String
deriving DecidableEq, Repr

/-- Root document of `context.json`. -/
structure Context where
  lastUpdated : String
  projectState : String
  taskHistory : List HistoryEntry
  currentContext : CurrentContext
deriving DecidableEq, Repr

/-- The two persisted documents threaded through every operation. -/
structure State where
  tasksData : TasksData
  context : Context
deriving DecidableEq, Repr

/-- `context-tracker.js` `addHistoryEntry(taskId, action, summary, details)`:
look the task up for its title snapshot, append one entry, refresh
`lastUpdated`, set/clear `activeTask` according to the action, store the
summary, save.  Returns `false` (state unchanged) when the task id is
unknown.  (When `taskId` is `NaN` the lookup fails, so the `activeTask`
assignment below only ever runs with a real number.) -/
def addHistoryEntry (now : String) (taskId : JSNum) (action summary : String)
    (details : HistoryDetails) (s : State) : State × Bool :=
  match s.tasksData.tasks.find? (fun t => jsNumEq t.id taskId) with
  | none => (s, false)
  | some task =>
    let entry : HistoryEntry :=
      { taskId := taskId, taskTitle := task.title, action := action,
        summary := summary, timestamp := now, details := details }
    let cc := s.context.currentContext
    let newActive : Option Int :=
      if action == "start" then taskId
      else if action == "complete" then none
      else cc.activeTask
    let ctx :=
      { s.context with
        taskHistory := s.context.taskHistory ++ [entry],
        lastUpdated := now,
        currentContext := { activeTask := newActive, summary := summary } }
    ({ s with context := ctx }, true)

/-- The action classification of `context-tracker.js` `updateTaskStatus`:
`'start'` on a fresh transition into `in-progress`, `'complete'` on a fresh
transition into `done`, `'update'` otherwise. -/
def statusAction (oldStatus newStatus : Status) : String :=
  if newStatus == .inProgress && oldStatus != .inProgress then "start"
  else if newStatus == .done && oldStatus != .done then "complete"
  else "update"

/-- `context-tracker.js` `updateTaskStatus(taskId, status, summary)`: find the
task, remember its old status, overwrite status and `updated_at`, save the
tasks file, then append a history entry whose action is classified from the
old/new pair. -/
def updateTaskStatus (now : String) (taskId : JSNum) (status : Status)
    (summary : String) (s : State) : State × Bool :=
  match s.tasksData.tasks.find? (fun t => jsNumEq t.id taskId) with
  | none => (s, false)
  | some task =>
    let oldStatus := task.status
    let tasks' := updateFirst (fun t => jsNumEq t.id taskId)
        (fun t => { t with status := status, updatedAt := now }) s.tasksData.tasks
    let s' : State := { s with tasksData := { s.tasksData with tasks := tasks' } }
    addHistoryEntry now taskId (statusAction oldStatus status) summary
      { oldStatus := some oldStatus, newStatus := some status } s'

/-- JS comparator `a.priority - b.priority` read as a `le` for the stable
sort: the pair is kept in order when the comparator is `≤ 0`. -/
def taskLE (a b : Task) : Bool := a.priority ≤ b.priority

/-- `context-tracker.js` `getNextTask()`: `null` when the store failed to
load, is empty, or has no `pending` task; otherwise the head of the
pending tasks stably sorted by ascending numeric priority. -/
def getNextTask (tasksData : Option TasksData) : Option Task :=
  match tasksData with
  | none => none
  | some td =>
    if td.tasks.isEmpty then none
    else
      let pendingTasks := td.tasks.filter (fun t => t.status == Status.pending)
      if pendingTasks.isEmpty then none
      else (pendingTasks.mergeSort taskLE).head?

/-- `context-tracker.js` `updateContextAfterTaskCompletion(taskId, summary)`:
refresh `lastUpdated`, clear `activeTask`, store the summary, save the
context, then consult `getNextTask` (the generated `copilot-context.md` is a
write-only artifact and is not part of the modelled state). -/
def updateContextAfterTaskCompletion (now : String) (taskId : JSNum)
    (summary : Option String) (s : State) : State × Option Task :=
  let ctx :=
    { s.context with
      lastUpdated := now,
      currentContext :=
        { activeTask := none,
          summary := summary.getD ("Задача #" ++ jsNumToString taskId ++ " завершена") } }
  let s' : State := { s with context := ctx }
  (s', getNextTask (some s'.tasksData))

/-- Result of `complete.js` `completeTaskWithContextUpdate`: the `message`
shapes of the source, as a tagged value.  `taskNotFound` carries the parsed
(possibly `NaN`) id interpolated into `Задача с ID ... не найдена`;
`subtaskNotFound` carries the raw token of `Подзадача с ID ... не найдена`.
The save-failure branch is unreachable here because file writes are modelled
as always succeeding. -/
inductive CompleteResult where
  | okSubtask (allSubtasksDone : Bool) (nextTask : Option Task)
  | okTask (nextTask : Option Task)
  | taskNotFound (id : JSNum)
  | subtaskNotFound (id : String)
deriving DecidableEq, Repr

/-- The `!isMainTask` branch of `completeTaskWithContextUpdate` (a dotted id):
find the parent by the parsed prefix, find the subtask by the full token,
mark the subtask `done`, cascade the parent to `done` when every subtask is
now `done`, stamp `updated_at`, save, append an `update` history entry, run
`updateTaskStatus(parent, 'done')` when the cascade fired, and finally
`updateContextAfterTaskCompletion`. -/
def completeSubtaskBranch (now : String) (taskId : String) (summary : Option String)
    (s : State) : State × CompleteResult :=
  let parts := jsSplitDot taskId
  let parentIdNum := jsParseInt (parts.headD "")
  match s.tasksData.tasks.find? (fun t => jsNumEq t.id parentIdNum) with
  | none => (s, .taskNotFound parentIdNum)
  | some parentTask =>
    match parentTask.subtasks.find? (fun st => st.id == taskId) with
    | none => (s, .subtaskNotFound taskId)
    | some subtask =>
      let newSubtasks := updateFirst (fun st => st.id == taskId)
          (fun st => { st with status := .done }) parentTask.subtasks
      let allSubtasksDone := newSubtasks.all (fun st => st.status == Status.done)
      let parent' : Task :=
        { parentTask with
          subtasks := newSubtasks,
          status := if allSubtasksDone then .done else parentTask.status,
          updatedAt := now }
      let tasks' := updateFirst (fun t => jsNumEq t.id parentIdNum) (fun _ => parent')
          s.tasksData.tasks
      let s1 : State := { s with tasksData := { s.tasksData with tasks := tasks' } }
      let autoSummary := summary.getD
          ("Выполнена подзадача " ++ taskId ++ " \"" ++ subtask.title ++ "\"")
      let s2 := (addHistoryEntry now parentIdNum "update" autoSummary {} s1).1
      let s3 :=
        if allSubtasksDone then
          (updateTaskStatus now parentIdNum .done
            ("Выполнены все подзадачи (" ++ toString parent'.subtasks.length ++ ")") s2).1
        else s2
      let next := updateContextAfterTaskCompletion now parentIdNum
          (some (summary.getD ("Задача " ++ taskId ++ " завершена успешно"))) s3
      (next.1, .okSubtask allSubtasksDone next.2)

/-- The `isMainTask` branch of `completeTaskWithContextUpdate` (an undotted
id): find the task by the parsed id, set it and every one of its subtasks to
`done`, stamp `updated_at`, save, run `updateTaskStatus(task, 'done')`, and
finally `updateContextAfterTaskCompletion`. -/
def completeMainBranch (now : String) (taskId : String) (summary : Option String)
    (s : State) : State × CompleteResult :=
  let taskIdNum := jsParseInt taskId
  match s.tasksData.tasks.find? (fun t => jsNumEq t.id taskIdNum) with
  | none => (s, .taskNotFound taskIdNum)
  | some task =>
    let task' : Task :=
      { task with
        status := .done,
        updatedAt := now,
        subtasks := task.subtasks.map (fun st => { st with status := .done }) }
    let tasks' := updateFirst (fun t => jsNumEq t.id taskIdNum) (fun _ => task')
        s.tasksData.tasks
    let s1 : State := { s with tasksData := { s.tasksData with tasks := tasks' } }
    let autoSummary := summary.getD
      ("Выполнена задача \"" ++ task.title ++ "\"" ++
        (if task.subtasks.length > 0 then
          " и все её подзадачи (" ++ toString task.subtasks.length ++ ")"
        else ""))
    let s2 := (updateTaskStatus now taskIdNum .done autoSummary s1).1
    let next := updateContextAfterTaskCompletion now taskIdNum
        (some (summary.getD ("Задача " ++ taskId ++ " завершена успешно"))) s2
    (next.1, .okTask next.2)

/-- `complete.js` `completeTaskWithContextUpdate(taskId, summary)`: dispatch on
whether the id token contains a dot. -/
def completeTaskWithContextUpdate (now : String) (taskId : String)
    (summary : Option String) (s : State) : State × CompleteResult :=
  if jsIncludesDot taskId then completeSubtaskBranch now taskId summary s
  else completeMainBranch now taskId summary s

/-- Result of `complete.js` `startTaskExecution`. -/
inductive StartExecResult where
  | notFound
  | started (task : Task)
  | indexMissing
deriving DecidableEq, Repr

/-- `complete.js` `startTaskExecution(taskId)`: look the task up by parsed id
(or fall back to `getNextTask()` when no id is given), set it to
`in-progress` with a fresh `updated_at`, write it back at its index, save,
and run `updateTaskStatus(task, 'in-progress')`.  There is no check that the
task was `pending` and no check for another `in-progress` task. -/
def startTaskExecution (now : String) (taskId : Option String) (s : State) :
    State × StartExecResult :=
  let td := s.tasksData
  let task : Option Task :=
    match taskId with
    | some tid => td.tasks.find? (fun t => jsNumEq t.id (jsParseInt tid))
    | none => getNextTask (some td)
  match task with
  | none => (s, .notFound)
  | some task =>
    let task' : Task := { task with status := .inProgress, updatedAt := now }
    if td.tasks.any (fun t => t.id == task.id) then
      let tasks' := updateFirst (fun t => t.id == task.id) (fun _ => task') td.tasks
      let s1 : State := { s with tasksData := { td with tasks := tasks' } }
      let s2 := (updateTaskStatus now (some task.id) .inProgress
          ("Начато выполнение задачи \"" ++ task.title ++ "\"") s1).1
      (s2, .started task')
    else (s, .indexMissing)

/-- The `priorityOrder` object of `copilot.js` `getNextTask`:
`{ high: 1, medium: 2, low: 3 }`; any other key reads as `undefined`
(modelled `none`). -/
def priorityOrder : String → JSNum
  | "high" => some 1
  | "medium" => some 2
  | "low" => some 3
  | _ => none

/-- JavaScript subtraction where an `undefined` operand yields `NaN`. -/
def jsSub : JSNum → JSNum → JSNum
  | some a, some b => some (a - b)
  | _, _ => none

/-- The `copilot.js` comparator
`priorityOrder[a.priority] - priorityOrder[b.priority]` as a `le` for the
stable sort: the pair stays in order when `SortCompare` yields `≤ 0`, and a
`NaN` comparator result is coerced to `+0` (ECMAScript `SortCompare`).
The object lookup coerces the numeric priority to a string key. -/
def copilotPriorityLE (a b : Task) : Bool :=
  (jsSub (priorityOrder (toString a.priority))
    (priorityOrder (toString b.priority))).getD 0 ≤ 0

/-- `copilot.js` `getNextTask()`: filter the `pending` tasks, sort them with
the `priorityOrder`-based comparator, return the first or `null`. -/
def copilotGetNextTask (td : TasksData) : Option Task :=
  let pendingTasks := td.tasks.filter (fun t => t.status == Status.pending)
  (pendingTasks.mergeSort copilotPriorityLE).head?

/-- `copilot.js` `getCurrentTask()`: the first task with status
`in-progress`, or `null`. -/
def getCurrentTask (td : TasksData) : Option Task :=
  (td.tasks.filter (fun t => t.status == Status.inProgress)).head?

/-- Result of `copilot.js` `startNextTask`. -/
inductive StartNextResult where
  | notFoundOrNotPending
  | alreadyActive (currentTask : Task)
  | started (task : Task)
  | indexMissing
deriving DecidableEq, Repr

/-- `copilot.js` `startNextTask(auto, targetTaskId)`: pick the task either
from `getNextTask()` (auto mode) or by `id === parseInt(targetTaskId) &&
status === 'pending'`; fail when none is found; fail with the current task
when some task is already `in-progress`; otherwise set the picked task to
`in-progress`, save, and run `updateTaskStatus(task, 'in-progress')`. -/
def startNextTask (now : String) (auto : Bool) (targetTaskId : Option String)
    (s : State) : State × StartNextResult :=
  let td := s.tasksData
  let task : Option Task :=
    if auto then copilotGetNextTask td
    else
      match targetTaskId with
      | some tid =>
        td.tasks.find? (fun t => jsNumEq t.id (jsParseInt tid) && t.status == Status.pending)
      | none => none
  match task with
  | none => (s, .notFoundOrNotPending)
  | some task =>
    match getCurrentTask td with
    | some currentTask => (s, .alreadyActive currentTask)
    | none =>
      let task' : Task := { task with status := .inProgress, updatedAt := now }
      if td.tasks.any (fun t => t.id == task.id) then
        let tasks' := updateFirst (fun t => t.id == task.id) (fun _ => task') td.tasks
        let s1 : State := { s with tasksData := { td with tasks := tasks' } }
        let s2 := (updateTaskStatus now (some task.id) .inProgress
            ("Начато выполнение задачи \"" ++ task.title ++ "\"") s1).1
        (s2, .started task')
      else (s, .indexMissing)

/-- `chat.js` `getNextTaskId(tasks)`: `1` on an empty list, otherwise
`Math.max(...ids) + 1`. -/
def getNextTaskId (tasks : List Task) : Int :=
  match tasks with
  | [] => 1
  | t :: ts => ts.foldl (fun m u => max m u.id) t.id + 1

/-- The subtask-id scheme of `chat.js` `generateTasksFromPlan`:
`` `${currentTask.id}.${currentSubtasks.length + 1}` ``. -/
def planSubtaskId (parentId : Int) (ordinal : Nat) : String :=
  toString parentId ++ "." ++ toString ordinal

/-- Result of `chat.js` `checkTaskCompletion`. -/
inductive CheckResult where
  | taskNotFound (id : JSNum)
  | mainStatus (taskId : JSNum) (title : String) (status : Status) (isDone : Bool)
  | subtaskNotFound (id : String)
  | subtaskStatus (taskId : String) (title : String) (status : Status) (isDone : Bool)
deriving DecidableEq, Repr

/-- `chat.js` `checkTaskCompletion(taskId)`: split the token at `'.'`, parse
the first part, find the main task by `===`; with one part report the task's
status; with a dotted id parse the second part with `parseInt` and look for a
subtask whose string `id` is `===`-equal to that *number*.  (The modelled
store always carries a subtask array, so the `не имеет подзадач` branch for a
missing field does not arise.) -/
def checkTaskCompletion (td : TasksData) (taskId : String) : CheckResult :=
  let parts := jsSplitDot taskId
  let mainTaskId := jsParseInt (parts.headD "")
  match td.tasks.find? (fun t => jsStrictEq (.num t.id) (jsNumVal mainTaskId)) with
  | none => .taskNotFound mainTaskId
  | some task =>
    if parts.length == 1 then
      .mainStatus mainTaskId task.title task.status (task.status == Status.done)
    else
      let subtaskId := jsParseInt ((parts.drop 1).headD "")
      match task.subtasks.find? (fun st => jsStrictEq (.str st.id) (jsNumVal subtaskId)) with
      | none => .subtaskNotFound taskId
      | some subtask =>
        .subtaskStatus taskId subtask.title subtask.status (subtask.status == Status.done)

/-! ### Concrete stores used by witnesses and counterexamples -/

/-- A small pending task without subtasks. -/
def demoTask (i : Int) (p : Int) : Task :=
  { id := i, title := "T", description := "", status := .pending, priority := p,
    subtasks := [], createdAt := "t0", updatedAt := "t0" }

/-- Four pending tasks with priorities `[3, 1, 2, 1]` in list order. -/
def demoPrioStore : TasksData :=
  { project := "P", version := "1.0.0",
    tasks := [demoTask 1 3, demoTask 2 1, demoTask 3 2, demoTask 4 1] }

/-- An empty history/context document with task 1 recorded active. -/
def demoContext : Context :=
  { lastUpdated := "t0", projectState := "p", taskHistory := [],
    currentContext := { activeTask := some 1, summary := "s" } }

/-- Task 1 with a single pending subtask `1.1`. -/
def demoParentTask : Task :=
  { id := 1, title := "T1", description := "d", status := .pending, priority := 2,
    subtasks := [{ id := "1.1", title := "S1", status := .pending }],
    createdAt := "t0", updatedAt := "t0" }

/-- State holding only `demoParentTask`. -/
def demoSubtaskState : State :=
  { tasksData := { project := "P", version := "1.0.0", tasks := [demoParentTask] },
    context := demoContext }

/-- State holding one plain pending task with id 1. -/
def demoPlainState : State :=
  { tasksData := { project := "P", version := "1.0.0", tasks := [demoTask 1 1] },
    context := demoContext }

/-- State whose only task (id 1) is already `done`. -/
def demoDoneState : State :=
  { tasksData :=
      { project := "P", version := "1.0.0",
        tasks := [{ demoTask 1 1 with status := .done }] },
    context := demoContext }

/-- State with task 1 `in-progress` and task 2 `pending`. -/
def demoActiveState : State :=
  { tasksData :=
      { project := "P", version := "1.0.0",
        tasks := [{ demoTask 1 1 with status := .inProgress }, demoTask 2 1] },
    context := demoContext }

/-- Task 2 with subtasks `2.1` (pending) and `2.2` (pending), as the plan
generator creates them. -/
def demoGenTask : Task :=
  { id := 2, title := "G", description := "", status := .pending, priority := 2,
    subtasks :=
      [{ id := planSubtaskId 2 1, title := "A", status := .pending },
       { id := planSubtaskId 2 2, title := "B", status := .pending }],
    createdAt := "t0", updatedAt := "t0" }

/-- Store holding only `demoGenTask`. -/
def demoGenStore : TasksData :=
  { project := "P", version := "1.0.0", tasks := [demoGenTask] }

def completedTask (now : String) (task : Task) : Task :=
  { task with
    status := .done,
    updatedAt := now,
    subtasks := task.subtasks.map (fun st => { st with status := .done }) }

def mainDoneEntry (now tid : String) (summary : Option String) (task : Task) : HistoryEntry :=
  { taskId := jsParseInt tid, taskTitle := task.title, action := "update",
    summary := summary.getD
      ("Выполнена задача \"" ++ task.title ++ "\"" ++
        (if task.subtasks.length > 0 then
          " и все её подзадачи (" ++ toString task.subtasks.length ++ ")"
        else "")),
    timestamp := now,
    details := { oldStatus := some .done, newStatus := some .done } }

def mainFinalState (now tid : String) (summary : Option String) (s : State) (task : Task) : State :=
  { tasksData :=
      { s.tasksData with
        tasks := updateFirst (fun t => jsNumEq t.id (jsParseInt tid))
          (fun _ => completedTask now task) s.tasksData.tasks },
    context :=
      { lastUpdated := now, projectState := s.context.projectState,
        taskHistory := s.context.taskHistory ++ [mainDoneEntry now tid summary task],
        currentContext :=
          { activeTask := none,
            summary := summary.getD ("Задача " ++ tid ++ " завершена успешно") } } }

def doneSubtasks (tid : String) (parent : Task) : List Subtask :=
  updateFirst (fun st => st.id == tid) (fun st => { st with status := .done })
    parent.subtasks

def subtaskAllDone (tid : String) (parent : Task) : Bool :=
  (doneSubtasks tid parent).all (fun st => st.status == Status.done)

def subtaskUpdateEntry (now tid : String) (summary : Option String) (pidn : JSNum)
    (parent : Task) (sub : Subtask) : HistoryEntry :=
  { taskId := pidn, taskTitle := parent.title, action := "update",
    summary := summary.getD
      ("Выполнена подзадача " ++ tid ++ " \"" ++ sub.title ++ "\""),
    timestamp := now, details := {} }

def rollupEntry (now tid : String) (pidn : JSNum) (parent : Task) : HistoryEntry :=
  { taskId := pidn, taskTitle := parent.title, action := "update",
    summary := "Выполнены все подзадачи (" ++ toString (doneSubtasks tid parent).length ++ ")",
    timestamp := now,
    details := { oldStatus := some .done, newStatus := some .done } }

def rolledParent (now tid : String) (parent : Task) : Task :=
  { parent with
    subtasks := doneSubtasks tid parent,
    status := .done,
    updatedAt := now }

def subtaskRollupFinalState (now tid : String) (summary : Option String) (s : State)
    (parent : Task) (sub : Subtask) : State :=
  { tasksData :=
      { s.tasksData with
        tasks := updateFirst
          (fun t => jsNumEq t.id (jsParseInt ((jsSplitDot tid).headD "")))
          (fun _ => rolledParent now tid parent) s.tasksData.tasks },
    context :=
      { lastUpdated := now, projectState := s.context.projectState,
        taskHistory := s.context.taskHistory ++
          [subtaskUpdateEntry now tid summary (jsParseInt ((jsSplitDot tid).headD "")) parent sub,
           rollupEntry now tid (jsParseInt ((jsSplitDot tid).headD "")) parent],
        currentContext :=
          { activeTask := none,
            summary := summary.getD ("Задача " ++ tid ++ " завершена успешно") } } }

def noRollParent (now tid : String) (parent : Task) : Task :=
  { parent with
    subtasks := doneSubtasks tid parent,
    updatedAt := now }

def subtaskNoRollupFinalState (now tid : String) (summary : Option String) (s : State)
    (parent : Task) (sub : Subtask) : State :=
  { tasksData :=
      { s.tasksData with
        tasks := updateFirst
          (fun t => jsNumEq t.id (jsParseInt ((jsSplitDot tid).headD "")))
          (fun _ => noRollParent now tid parent) s.tasksData.tasks },
    context :=
      { lastUpdated := now, projectState := s.context.projectState,
        taskHistory := s.context.taskHistory ++
          [subtaskUpdateEntry now tid summary (jsParseInt ((jsSplitDot tid).headD "")) parent sub],
        currentContext :=
          { activeTask := none,
            summary := summary.getD ("Задача " ++ tid ++ " завершена успешно") } } }

/-! ### Helper lemmas -/

theorem find?_updateFirst {α} (p : α → Bool) (f : α → α)
    (hpf : ∀ a, p a = true → p (f a) = true) :
    ∀ l : List α, (updateFirst p f l).find? p = (l.find? p).map f := by
  intro l
  induction l with
  | nil => rfl
  | cons x xs ih =>
    by_cases h : p x = true
    · simp [updateFirst, h, List.find?_cons_of_pos, hpf x h]
    · have h' : p x = false := by simpa using h
      simp [updateFirst, h', List.find?_cons_of_neg, ih]

theorem updateFirst_updateFirst {α} (p : α → Bool) (f g : α → α)
    (hpg : ∀ a, p a = true → p (g a) = true) :
    ∀ l : List α, updateFirst p f (updateFirst p g l) =
      updateFirst p (fun a => f (g a)) l := by
  intro l
  induction l with
  | nil => rfl
  | cons x xs ih =>
    by_cases h : p x = true
    · simp [updateFirst, h, hpg x h]
    · have h' : p x = false := by simpa using h
      simp [updateFirst, h', ih]

theorem foldl_max_init_le (ts : List Task) :
    ∀ a : Int, a ≤ ts.foldl (fun m u => max m u.id) a := by
  induction ts with
  | nil => intro a; simp
  | cons t ts ih =>
    intro a
    calc a ≤ max a t.id := le_max_left _ _
    _ ≤ _ := ih _

theorem foldl_max_mem_le (ts : List Task) :
    ∀ a : Int, ∀ u ∈ ts, u.id ≤ ts.foldl (fun m u => max m u.id) a := by
  induction ts with
  | nil => intro a u hu; cases hu
  | cons t ts ih =>
    intro a u hu
    rcases List.mem_cons.mp hu with rfl | hu
    · calc u.id ≤ max a u.id := le_max_right _ _
      _ ≤ _ := foldl_max_init_le ts _
    · exact ih _ u hu

theorem foldl_max_attained (ts : List Task) :
    ∀ a : Int, ts.foldl (fun m u => max m u.id) a = a ∨
      ∃ u ∈ ts, ts.foldl (fun m u => max m u.id) a = u.id := by
  induction ts with
  | nil => intro a; left; rfl
  | cons t ts ih =>
    intro a
    rw [List.foldl_cons]
    rcases ih (max a t.id) with h | ⟨u, hu, h⟩
    · rcases max_choice a t.id with hm | hm
      · left; rw [h, hm]
      · right; exact ⟨t, List.mem_cons_self _ _, by rw [h, hm]⟩
    · right; exact ⟨u, List.mem_cons_of_mem _ hu, h⟩

/-- The head of a stable merge sort is the first element of the input that is
`le`-below every element: it is minimal, and every element before it in the
input is strictly above it (`le y x = false`). -/
theorem head?_mergeSort_first_min {α} (le : α → α → Bool)
    (trans : ∀ (a b c : α), le a b → le b c → le a c)
    (total : ∀ (a b : α), le a b || le b a) :
    ∀ (l : List α) (x : α), (l.mergeSort le).head? = some x →
      (∀ y ∈ l, le x y = true) ∧
      ∃ l₁ l₂, l = l₁ ++ x :: l₂ ∧ ∀ y ∈ l₁, le y x = false := by
  intro l
  induction l with
  | nil => intro x hx; simp at hx
  | cons a t ih =>
    intro x hx
    obtain ⟨l₁, l₂, h1, h2, h3⟩ := List.mergeSort_cons trans total a t
    cases l₁ with
    | nil =>
      rw [h1] at hx
      simp only [List.nil_append, List.head?_cons, Option.some.injEq] at hx
      have hsorted := List.sorted_mergeSort trans total (a :: t)
      rw [h1, List.nil_append] at hsorted
      constructor
      · intro y hy
        rw [← hx]
        rcases List.mem_cons.mp hy with hya | hyt
        · rw [hya]; have := total a a; simpa using this
        · have hy₂ : y ∈ l₂ := by
            have hmem : y ∈ t.mergeSort le := (List.mergeSort_perm t le).mem_iff.mpr hyt
            rwa [h2, List.nil_append] at hmem
          exact List.rel_of_pairwise_cons hsorted hy₂
      · exact ⟨[], t, by rw [← hx]; rfl, by simp⟩
    | cons b l₁' =>
      rw [h1] at hx
      simp only [List.cons_append, List.head?_cons, Option.some.injEq] at hx
      have hhead : (t.mergeSort le).head? = some b := by
        rw [h2]; rfl
      obtain ⟨hmin, p₁, p₂, hdec, hfirst⟩ := ih b hhead
      have hab : le a b = false := by
        simpa using h3 b (List.mem_cons_self _ _)
      have hba : le b a = true := by
        have := total a b
        rw [hab] at this
        simpa using this
      constructor
      · intro y hy
        rw [← hx]
        rcases List.mem_cons.mp hy with hya | hyt
        · rw [hya]; exact hba
        · exact hmin y hyt
      · refine ⟨a :: p₁, p₂, ?_, ?_⟩
        · rw [← hx, hdec]; rfl
        · intro y hy
          rw [← hx]
          rcases List.mem_cons.mp hy with hya | hyp
          · rw [hya]; exact hab
          · exact hfirst y hyp

theorem addHistoryEntry_spec (now : String) (tid : JSNum) (action sum : String)
    (details : HistoryDetails) (s : State) (task : Task)
    (hfind : s.tasksData.tasks.find? (fun t => jsNumEq t.id tid) = some task) :
    addHistoryEntry now tid action sum details s =
      ({ s with
         context :=
           { s.context with
             taskHistory := s.context.taskHistory ++
               [{ taskId := tid, taskTitle := task.title, action := action,
                  summary := sum, timestamp := now, details := details }],
             lastUpdated := now,
             currentContext :=
               { activeTask :=
                   if action == "start" then tid
                   else if action == "complete" then none
                   else s.context.currentContext.activeTask,
                 summary := sum } } }, true) := by
  unfold addHistoryEntry
  rw [hfind]

theorem updateTaskStatus_spec (now : String) (tid : JSNum) (status : Status)
    (sum : String) (s : State) (task : Task)
    (hfind : s.tasksData.tasks.find? (fun t => jsNumEq t.id tid) = some task) :
    updateTaskStatus now tid status sum s =
      ({ tasksData :=
           { s.tasksData with
             tasks := updateFirst (fun t => jsNumEq t.id tid)
               (fun t => { t with status := status, updatedAt := now })
               s.tasksData.tasks },
         context :=
           { s.context with
             taskHistory := s.context.taskHistory ++
               [{ taskId := tid, taskTitle := task.title,
                  action := statusAction task.status status,
                  summary := sum, timestamp := now,
                  details := { oldStatus := some task.status, newStatus := some status } }],
             lastUpdated := now,
             currentContext :=
               { activeTask :=
                   if statusAction task.status status == "start" then tid
                   else if statusAction task.status status == "complete" then none
                   else s.context.currentContext.activeTask,
                 summary := sum } } }, true) := by
  have hpred : jsNumEq task.id tid = true := by
    have := List.find?_some hfind
    simpa using this
  have hfind2 : (updateFirst (fun t => jsNumEq t.id tid)
        (fun t => { t with status := status, updatedAt := now })
        s.tasksData.tasks).find? (fun t => jsNumEq t.id tid) =
      some { task with status := status, updatedAt := now } := by
    rw [find?_updateFirst (fun t : Task => jsNumEq t.id tid)
      (fun t : Task => { t with status := status, updatedAt := now }) (fun a ha => ha), hfind]
    rfl
  unfold updateTaskStatus
  rw [hfind]
  simp only
  rw [addHistoryEntry_spec _ _ _ _ _ _ _ hfind2]

theorem completeMain_spec (now tid : String) (summary : Option String) (s : State)
    (task : Task)
    (hdot : jsIncludesDot tid = false)
    (hfind : s.tasksData.tasks.find? (fun t => jsNumEq t.id (jsParseInt tid)) = some task) :
    completeTaskWithContextUpdate now tid summary s =
      (mainFinalState now tid summary s task,
       .okTask (getNextTask (some (mainFinalState now tid summary s task).tasksData))) := by
  have hpred : jsNumEq task.id (jsParseInt tid) = true := by
    have := List.find?_some hfind
    simpa using this
  have hfind2 : (updateFirst (fun t => jsNumEq t.id (jsParseInt tid))
        (fun _ => completedTask now task) s.tasksData.tasks).find?
        (fun t => jsNumEq t.id (jsParseInt tid)) = some (completedTask now task) := by
    rw [find?_updateFirst (fun t : Task => jsNumEq t.id (jsParseInt tid))
      (fun _ : Task => completedTask now task) (fun a _ => hpred), hfind]
    rfl
  unfold completeTaskWithContextUpdate
  rw [hdot]
  simp only [Bool.false_eq_true, if_false]
  simp only [completeMainBranch]
  rw [hfind]
  simp only
  rw [updateTaskStatus_spec _ _ _ _ _ _ hfind2]
  have hsa : statusAction (completedTask now task).status Status.done = "update" := rfl
  rw [hsa]
  have h1 : (("update" : String) == "start") = false := rfl
  have h2 : (("update" : String) == "complete") = false := rfl
  rw [h1, h2]
  simp only [if_false, Bool.false_eq_true]
  unfold updateContextAfterTaskCompletion
  simp only [mainFinalState, mainDoneEntry, completedTask]
  have hUU : updateFirst (fun t : Task => jsNumEq t.id (jsParseInt tid))
      (fun t : Task => { t with status := Status.done, updatedAt := now })
      (updateFirst (fun t : Task => jsNumEq t.id (jsParseInt tid))
        (fun _ : Task =>
          { task with
            status := Status.done,
            updatedAt := now,
            subtasks := task.subtasks.map (fun st => { st with status := Status.done }) })
        s.tasksData.tasks) =
    updateFirst (fun t : Task => jsNumEq t.id (jsParseInt tid))
      (fun _ : Task =>
        { task with
          status := Status.done,
          updatedAt := now,
          subtasks := task.subtasks.map (fun st => { st with status := Status.done }) })
      s.tasksData.tasks := by
    rw [updateFirst_updateFirst (fun t : Task => jsNumEq t.id (jsParseInt tid))
      (fun t : Task => { t with status := Status.done, updatedAt := now })
      (fun _ : Task =>
        { task with
          status := Status.done,
          updatedAt := now,
          subtasks := task.subtasks.map (fun st => { st with status := Status.done }) })
      (fun a _ => hpred)]
  rw [hUU]
  rfl

theorem completeSubtask_spec_rollup (now tid : String) (summary : Option String)
    (s : State) (parent : Task) (sub : Subtask)
    (hdot : jsIncludesDot tid = true)
    (hfindp : s.tasksData.tasks.find?
      (fun t => jsNumEq t.id (jsParseInt ((jsSplitDot tid).headD ""))) = some parent)
    (hfinds : parent.subtasks.find? (fun st => st.id == tid) = some sub)
    (hall : subtaskAllDone tid parent = true) :
    completeTaskWithContextUpdate now tid summary s =
      (subtaskRollupFinalState now tid summary s parent sub,
       .okSubtask true
         (getNextTask (some (subtaskRollupFinalState now tid summary s parent sub).tasksData))) := by
  have hpred : jsNumEq parent.id (jsParseInt ((jsSplitDot tid).headD "")) = true := by
    have := List.find?_some hfindp
    simpa using this
  have hall' : (updateFirst (fun st => st.id == tid)
      (fun st => { st with status := Status.done }) parent.subtasks).all
      (fun st => st.status == Status.done) = true := hall
  unfold completeTaskWithContextUpdate
  rw [hdot]
  simp only [if_true]
  simp only [completeSubtaskBranch]
  rw [hfindp]
  simp only
  rw [hfinds]
  simp only
  rw [hall']
  simp only [if_true, eq_self_iff_true]
  have hfind2 : (updateFirst
        (fun t => jsNumEq t.id (jsParseInt ((jsSplitDot tid).headD "")))
        (fun _ => rolledParent now tid parent) s.tasksData.tasks).find?
        (fun t => jsNumEq t.id (jsParseInt ((jsSplitDot tid).headD ""))) =
      some (rolledParent now tid parent) := by
    rw [find?_updateFirst (fun t : Task => jsNumEq t.id (jsParseInt ((jsSplitDot tid).headD "")))
      (fun _ : Task => rolledParent now tid parent) (fun a _ => hpred), hfindp]
    rfl
  rw [addHistoryEntry_spec _ _ _ _ _ _ _ hfind2]
  have h1 : (("update" : String) == "start") = false := rfl
  have h2 : (("update" : String) == "complete") = false := rfl
  rw [h1, h2]
  simp only [if_false, Bool.false_eq_true]
  rw [updateTaskStatus_spec _ _ _ _ _ _ hfind2]
  have hsa : statusAction (rolledParent now tid parent).status Status.done = "update" := rfl
  rw [hsa]
  rw [h1, h2]
  simp only [if_false, Bool.false_eq_true]
  unfold updateContextAfterTaskCompletion
  have hUU : updateFirst
      (fun t : Task => jsNumEq t.id (jsParseInt ((jsSplitDot tid).headD "")))
      (fun t : Task => { t with status := Status.done, updatedAt := now })
      (updateFirst (fun t : Task => jsNumEq t.id (jsParseInt ((jsSplitDot tid).headD "")))
        (fun _ : Task => rolledParent now tid parent) s.tasksData.tasks) =
    updateFirst (fun t : Task => jsNumEq t.id (jsParseInt ((jsSplitDot tid).headD "")))
      (fun _ : Task => rolledParent now tid parent) s.tasksData.tasks := by
    rw [updateFirst_updateFirst (fun t : Task => jsNumEq t.id (jsParseInt ((jsSplitDot tid).headD "")))
      (fun t : Task => { t with status := Status.done, updatedAt := now })
      (fun _ : Task => rolledParent now tid parent) (fun a _ => hpred)]
    rfl
  dsimp only
  simp only [rolledParent, doneSubtasks] at hUU
  rw [hUU]
  simp only [subtaskRollupFinalState, rolledParent, subtaskUpdateEntry, rollupEntry,
    doneSubtasks, List.append_assoc, List.cons_append, List.nil_append]
  rfl

theorem completeSubtask_spec_norollup (now tid : String) (summary : Option String)
    (s : State) (parent : Task) (sub : Subtask)
    (hdot : jsIncludesDot tid = true)
    (hfindp : s.tasksData.tasks.find?
      (fun t => jsNumEq t.id (jsParseInt ((jsSplitDot tid).headD ""))) = some parent)
    (hfinds : parent.subtasks.find? (fun st => st.id == tid) = some sub)
    (hall : subtaskAllDone tid parent = false) :
    completeTaskWithContextUpdate now tid summary s =
      (subtaskNoRollupFinalState now tid summary s parent sub,
       .okSubtask false
         (getNextTask (some (subtaskNoRollupFinalState now tid summary s parent sub).tasksData))) := by
  have hpred : jsNumEq parent.id (jsParseInt ((jsSplitDot tid).headD "")) = true := by
    have := List.find?_some hfindp
    simpa using this
  have hall' : (updateFirst (fun st => st.id == tid)
      (fun st => { st with status := Status.done }) parent.subtasks).all
      (fun st => st.status == Status.done) = false := hall
  unfold completeTaskWithContextUpdate
  rw [hdot]
  simp only [if_true]
  simp only [completeSubtaskBranch]
  rw [hfindp]
  simp only
  rw [hfinds]
  simp only
  rw [hall']
  simp only [Bool.false_eq_true, if_false]
  have hfind2 : (updateFirst
        (fun t => jsNumEq t.id (jsParseInt ((jsSplitDot tid).headD "")))
        (fun _ => noRollParent now tid parent) s.tasksData.tasks).find?
        (fun t => jsNumEq t.id (jsParseInt ((jsSplitDot tid).headD ""))) =
      some (noRollParent now tid parent) := by
    rw [find?_updateFirst (fun t : Task => jsNumEq t.id (jsParseInt ((jsSplitDot tid).headD "")))
      (fun _ : Task => noRollParent now tid parent) (fun a _ => hpred), hfindp]
    rfl
  rw [addHistoryEntry_spec _ _ _ _ _ _ _ hfind2]
  have h1 : (("update" : String) == "start") = false := rfl
  have h2 : (("update" : String) == "complete") = false := rfl
  rw [h1, h2]
  simp only [if_false, Bool.false_eq_true]
  unfold updateContextAfterTaskCompletion
  simp only [subtaskNoRollupFinalState, noRollParent, subtaskUpdateEntry, doneSubtasks]
  rfl

theorem jsNumEq_nan (a : Int) : jsNumEq a none = false := rfl

theorem jsStr_never_eq_parsed (s : String) (x : JSNum) :
    jsStrictEq (.str s) (jsNumVal x) = false := by
  cases x <;> rfl

/-- C3: `getNextTaskId` returns 1 on the empty list and `max id + 1`
otherwise, hence a value strictly greater than every existing id. -/
theorem getNextTaskId_spec :
    getNextTaskId [] = 1 ∧
    ∀ tasks : List Task, tasks ≠ [] →
      (∀ t ∈ tasks, t.id < getNextTaskId tasks) ∧
      ∃ u ∈ tasks, getNextTaskId tasks = u.id + 1 := by
  refine ⟨rfl, ?_⟩
  intro tasks hne
  match tasks with
  | [] => exact absurd rfl hne
  | t :: ts =>
    constructor
    · intro u hu
      rcases List.mem_cons.mp hu with h | h
      · subst h
        have := foldl_max_init_le ts u.id
        simp only [getNextTaskId]
        omega
      · have := foldl_max_mem_le ts t.id u h
        simp only [getNextTaskId]
        omega
    · rcases foldl_max_attained ts t.id with h | ⟨u, hu, h⟩
      · exact ⟨t, List.mem_cons_self _ _, by simp only [getNextTaskId]; omega⟩
      · exact ⟨u, List.mem_cons_of_mem _ hu, by simp only [getNextTaskId]; omega⟩

/-- C3 witness: on a concrete two-task store `getNextTaskId` exceeds both ids
and equals one id plus one. -/
theorem getNextTaskId_spec_witness :
    (∀ t ∈ [demoTask 1 3, demoTask 2 1], t.id < getNextTaskId [demoTask 1 3, demoTask 2 1]) ∧
    ∃ u ∈ [demoTask 1 3, demoTask 2 1],
      getNextTaskId [demoTask 1 3, demoTask 2 1] = u.id + 1 :=
  getNextTaskId_spec.2 [demoTask 1 3, demoTask 2 1] (by decide)

/-- C7: calling `start` with an id that matches no task fails (`notFound`
branch in `complete.js`, merged not-found branch in `copilot.js`) and leaves
the threaded store state unchanged: the failure is returned before any save. -/
theorem start_unknown_id_unchanged (now tid : String) (s : State)
    (hmiss : ∀ t ∈ s.tasksData.tasks, jsNumEq t.id (jsParseInt tid) = false) :
    startTaskExecution now (some tid) s = (s, .notFound) ∧
    startNextTask now false (some tid) s = (s, .notFoundOrNotPending) := by
  have hf1 : s.tasksData.tasks.find? (fun t => jsNumEq t.id (jsParseInt tid)) = none :=
    List.find?_eq_none.mpr (fun t ht => by rw [hmiss t ht]; simp)
  have hf2 : s.tasksData.tasks.find?
      (fun t => jsNumEq t.id (jsParseInt tid) && t.status == Status.pending) = none :=
    List.find?_eq_none.mpr (fun t ht => by rw [hmiss t ht]; simp)
  constructor
  · simp only [startTaskExecution]
    rw [hf1]
  · simp only [startNextTask, Bool.false_eq_true, if_false]
    rw [hf2]

/-- C7 witness: starting the unknown id 99 on a concrete one-task store
returns the failure and the unchanged state for both implementations. -/
theorem start_unknown_id_unchanged_witness :
    startTaskExecution "t1" (some "99") demoPlainState = (demoPlainState, .notFound) ∧
    startNextTask "t1" false (some "99") demoPlainState =
      (demoPlainState, .notFoundOrNotPending) :=
  start_unknown_id_unchanged "t1" "99" demoPlainState (by decide)

/-- C8 counterexample: the non-numeric token `"abc"` parses to `NaN`, matches
no task, and `completeTaskWithContextUpdate` returns the same `taskNotFound`
error shape that the unknown numeric id `"99"` produces; no separate
`InvalidId` error exists anywhere on this path. -/
theorem malformed_id_taskNotFound_cex :
    completeTaskWithContextUpdate "t1" "abc" none demoPlainState =
      (demoPlainState, .taskNotFound none) ∧
    completeTaskWithContextUpdate "t1" "99" none demoPlainState =
      (demoPlainState, .taskNotFound (some 99)) := by
  constructor <;> decide

/-- C8 amended: a malformed (digit-free) id token makes `parseInt` return
`NaN`, which strict-equals no stored id, so the operation fails with the
`TaskNotFound` result carrying the `NaN` id; an unknown numeric id fails with
the same `TaskNotFound` result carrying that number.  The code defines no
distinct `InvalidId` error. -/
theorem malformed_id_error_spec (now tid : String) (summary : Option String)
    (s : State) :
    (jsIncludesDot tid = false → jsParseInt tid = none →
      completeTaskWithContextUpdate now tid summary s = (s, .taskNotFound none)) ∧
    (∀ n : Int, jsIncludesDot tid = false → jsParseInt tid = some n →
      (∀ t ∈ s.tasksData.tasks, t.id ≠ n) →
      completeTaskWithContextUpdate now tid summary s = (s, .taskNotFound (some n))) := by
  constructor
  · intro hdot hnan
    unfold completeTaskWithContextUpdate
    rw [hdot]
    simp only [Bool.false_eq_true, if_false]
    simp only [completeMainBranch]
    rw [hnan]
    rw [List.find?_eq_none.mpr (fun t _ => by rw [jsNumEq_nan]; simp)]
  · intro n hdot hn hne
    unfold completeTaskWithContextUpdate
    rw [hdot]
    simp only [Bool.false_eq_true, if_false]
    simp only [completeMainBranch]
    rw [hn]
    rw [List.find?_eq_none.mpr (fun t ht => by
      have := hne t ht
      simp [jsNumEq, jsNumVal, jsStrictEq, this])]

/-- C8 witness: the amended statement applied to the concrete tokens `"abc"`
and `"99"` on a one-task store. -/
theorem malformed_id_error_spec_witness :
    completeTaskWithContextUpdate "t1" "abc" none demoPlainState =
      (demoPlainState, .taskNotFound none) ∧
    completeTaskWithContextUpdate "t1" "77" none demoPlainState =
      (demoPlainState, .taskNotFound (some 77)) :=
  ⟨(malformed_id_error_spec "t1" "abc" none demoPlainState).1 (by decide) (by decide),
   (malformed_id_error_spec "t1" "77" none demoPlainState).2 77 (by decide) (by decide)
     (by decide)⟩

/-- C10: on a dotted id whose main task exists, `checkTaskCompletion` parses
the ordinal with `parseInt` and compares it by strict equality against the
string subtask id, so it always answers `subtaskNotFound` — even when a
subtask with exactly that composite id (as created by `generateTasksFromPlan`)
is present. -/
theorem checkTaskCompletion_dotted_id_spec (td : TasksData) (tid : String)
    (task : Task) (k : Nat)
    (hlen : (jsSplitDot tid).length ≠ 1)
    (hfind : td.tasks.find?
      (fun t => jsStrictEq (.num t.id) (jsNumVal (jsParseInt ((jsSplitDot tid).headD "")))) =
      some task)
    (hscheme : tid = planSubtaskId task.id k)
    (hex : ∃ st ∈ task.subtasks, st.id = tid) :
    checkTaskCompletion td tid = .subtaskNotFound tid := by
  have hlen' : ((jsSplitDot tid).length == 1) = false := by
    simpa using hlen
  simp only [checkTaskCompletion]
  rw [hfind]
  simp only [hlen', Bool.false_eq_true, if_false]
  rw [List.find?_eq_none.mpr (fun st _ => by rw [jsStr_never_eq_parsed]; simp)]

/-- C10 witness: checking subtask `"2.1"` of the generated task 2, whose
subtask list does contain the id `"2.1"`, still reports `subtaskNotFound`. -/
theorem checkTaskCompletion_dotted_id_spec_witness :
    checkTaskCompletion demoGenStore "2.1" = .subtaskNotFound "2.1" :=
  checkTaskCompletion_dotted_id_spec demoGenStore "2.1" demoGenTask 1
    (by decide) (by decide) (by decide) (by decide)

/-- C1: the status rollup.  Completing a subtask cascades the parent to
`done` exactly when every subtask of the parent is then `done` (otherwise the
parent status is untouched), and completing a task directly forces the task
and every one of its subtasks to `done`. -/
theorem rollup_and_force_done (now tid : String) (summary : Option String)
    (s : State) (parent task : Task) (sub : Subtask) :
    (jsIncludesDot tid = true →
      s.tasksData.tasks.find?
        (fun t => jsNumEq t.id (jsParseInt ((jsSplitDot tid).headD ""))) = some parent →
      parent.subtasks.find? (fun st => st.id == tid) = some sub →
      ∃ p', (completeTaskWithContextUpdate now tid summary s).1.tasksData.tasks.find?
          (fun t => jsNumEq t.id (jsParseInt ((jsSplitDot tid).headD ""))) = some p' ∧
        p'.subtasks = doneSubtasks tid parent ∧
        p'.status = (if subtaskAllDone tid parent then .done else parent.status) ∧
        (subtaskAllDone tid parent = true →
          p'.status = .done ∧ p'.subtasks.all (fun st => st.status == Status.done) = true)) ∧
    (jsIncludesDot tid = false →
      s.tasksData.tasks.find? (fun t => jsNumEq t.id (jsParseInt tid)) = some task →
      ∃ p', (completeTaskWithContextUpdate now tid summary s).1.tasksData.tasks.find?
          (fun t => jsNumEq t.id (jsParseInt tid)) = some p' ∧
        p'.status = .done ∧ ∀ st ∈ p'.subtasks, st.status = .done) := by
  constructor
  · intro hdot hfindp hfinds
    have hpred : jsNumEq parent.id (jsParseInt ((jsSplitDot tid).headD "")) = true := by
      have := List.find?_some hfindp
      simpa using this
    by_cases hall : subtaskAllDone tid parent = true
    · rw [completeSubtask_spec_rollup now tid summary s parent sub hdot hfindp hfinds hall]
      refine ⟨rolledParent now tid parent, ?_, rfl, by rw [hall]; rfl, fun _ => ⟨rfl, hall⟩⟩
      simp only [subtaskRollupFinalState]
      rw [find?_updateFirst (fun t : Task => jsNumEq t.id (jsParseInt ((jsSplitDot tid).headD "")))
        (fun _ : Task => rolledParent now tid parent) (fun a _ => hpred), hfindp]
      rfl
    · have hall' : subtaskAllDone tid parent = false := by
        simpa using hall
      rw [completeSubtask_spec_norollup now tid summary s parent sub hdot hfindp hfinds hall']
      refine ⟨noRollParent now tid parent, ?_, rfl, by rw [hall']; rfl, fun h => absurd h hall⟩
      simp only [subtaskNoRollupFinalState]
      rw [find?_updateFirst (fun t : Task => jsNumEq t.id (jsParseInt ((jsSplitDot tid).headD "")))
        (fun _ : Task => noRollParent now tid parent) (fun a _ => hpred), hfindp]
      rfl
  · intro hdot hfind
    have hpred : jsNumEq task.id (jsParseInt tid) = true := by
      have := List.find?_some hfind
      simpa using this
    rw [completeMain_spec now tid summary s task hdot hfind]
    refine ⟨completedTask now task, ?_, rfl, ?_⟩
    · simp only [mainFinalState]
      rw [find?_updateFirst (fun t : Task => jsNumEq t.id (jsParseInt tid))
        (fun _ : Task => completedTask now task) (fun a _ => hpred), hfind]
      rfl
    · intro st hst
      simp only [completedTask] at hst
      rcases List.mem_map.mp hst with ⟨st0, _, h⟩
      rw [← h]

/-- C1 witness: completing the last subtask `1.1` of the concrete parent
task 1 cascades it to `done`, and completing the plain task 1 directly marks
it `done` with all subtasks `done`. -/
theorem rollup_and_force_done_witness :
    (∃ p', (completeTaskWithContextUpdate "t1" "1.1" none demoSubtaskState).1.tasksData.tasks.find?
        (fun t => jsNumEq t.id (jsParseInt ((jsSplitDot "1.1").headD ""))) = some p' ∧
      p'.subtasks = doneSubtasks "1.1" demoParentTask ∧
      p'.status = (if subtaskAllDone "1.1" demoParentTask then .done else demoParentTask.status) ∧
      (subtaskAllDone "1.1" demoParentTask = true →
        p'.status = .done ∧ p'.subtasks.all (fun st => st.status == Status.done) = true)) ∧
    (∃ p', (completeTaskWithContextUpdate "t1" "1" none demoPlainState).1.tasksData.tasks.find?
        (fun t => jsNumEq t.id (jsParseInt "1")) = some p' ∧
      p'.status = .done ∧ ∀ st ∈ p'.subtasks, st.status = .done) :=
  ⟨(rollup_and_force_done "t1" "1.1" none demoSubtaskState demoParentTask
      (demoTask 0 0) ⟨"1.1", "S1", .pending⟩).1 (by decide) (by decide) (by decide),
   (rollup_and_force_done "t1" "1" none demoPlainState (demoTask 0 0)
      (demoTask 1 1) ⟨"x", "x", .pending⟩).2 (by decide) (by decide)⟩



/-- C5 counterexample: completing the only subtask `1.1` (rollup fires)
appends two history entries whose actions are both `update`; no `complete`
entry is recorded, because the parent is saved as `done` before
`updateTaskStatus` reads the old status back. -/
theorem completeSubtask_rollup_entry_actions_cex :
    (completeTaskWithContextUpdate "t1" "1.1" none demoSubtaskState).1.context.taskHistory.map
      (fun e => e.action) = ["update", "update"] ∧
    ((completeTaskWithContextUpdate "t1" "1.1" none demoSubtaskState).1.context.taskHistory.all
      (fun e => !(e.action == "complete"))) = true := by
  constructor <;> decide

/-- C5 amended: a successful `completeSubtask` stamps the parent's
`updated_at` and appends an `update` history entry; when the rollup fires it
appends a second entry whose action is again `update` (with details
`done → done`), not `complete`; when the rollup does not fire only the one
`update` entry is appended. -/
theorem completeSubtask_history_spec (now tid : String) (summary : Option String)
    (s : State) (parent : Task) (sub : Subtask)
    (hdot : jsIncludesDot tid = true)
    (hfindp : s.tasksData.tasks.find?
      (fun t => jsNumEq t.id (jsParseInt ((jsSplitDot tid).headD ""))) = some parent)
    (hfinds : parent.subtasks.find? (fun st => st.id == tid) = some sub) :
    ∃ p', (completeTaskWithContextUpdate now tid summary s).1.tasksData.tasks.find?
        (fun t => jsNumEq t.id (jsParseInt ((jsSplitDot tid).headD ""))) = some p' ∧
      p'.updatedAt = now ∧
      (subtaskAllDone tid parent = true →
        (completeTaskWithContextUpdate now tid summary s).1.context.taskHistory =
          s.context.taskHistory ++
            [subtaskUpdateEntry now tid summary (jsParseInt ((jsSplitDot tid).headD "")) parent sub,
             rollupEntry now tid (jsParseInt ((jsSplitDot tid).headD "")) parent] ∧
        (subtaskUpdateEntry now tid summary (jsParseInt ((jsSplitDot tid).headD "")) parent sub).action = "update" ∧
        (rollupEntry now tid (jsParseInt ((jsSplitDot tid).headD "")) parent).action = "update") ∧
      (subtaskAllDone tid parent = false →
        (completeTaskWithContextUpdate now tid summary s).1.context.taskHistory =
          s.context.taskHistory ++
            [subtaskUpdateEntry now tid summary (jsParseInt ((jsSplitDot tid).headD "")) parent sub] ∧
        (subtaskUpdateEntry now tid summary (jsParseInt ((jsSplitDot tid).headD "")) parent sub).action = "update") := by
  have hpred : jsNumEq parent.id (jsParseInt ((jsSplitDot tid).headD "")) = true := by
    have := List.find?_some hfindp
    simpa using this
  by_cases hall : subtaskAllDone tid parent = true
  · rw [completeSubtask_spec_rollup now tid summary s parent sub hdot hfindp hfinds hall]
    refine ⟨rolledParent now tid parent, ?_, rfl, fun _ => ⟨rfl, rfl, rfl⟩,
      fun h => absurd hall (by rw [h]; simp)⟩
    simp only [subtaskRollupFinalState]
    rw [find?_updateFirst (fun t : Task => jsNumEq t.id (jsParseInt ((jsSplitDot tid).headD "")))
      (fun _ : Task => rolledParent now tid parent) (fun a _ => hpred), hfindp]
    rfl
  · have hall' : subtaskAllDone tid parent = false := by
      simpa using hall
    rw [completeSubtask_spec_norollup now tid summary s parent sub hdot hfindp hfinds hall']
    refine ⟨noRollParent now tid parent, ?_, rfl, fun h => absurd h hall,
      fun _ => ⟨rfl, rfl⟩⟩
    simp only [subtaskNoRollupFinalState]
    rw [find?_updateFirst (fun t : Task => jsNumEq t.id (jsParseInt ((jsSplitDot tid).headD "")))
      (fun _ : Task => noRollParent now tid parent) (fun a _ => hpred), hfindp]
    rfl

/-- C5 witness: the amended statement at the concrete rollup instance
(`1.1` is the only subtask of task 1). -/
theorem completeSubtask_history_spec_witness :
    ∃ p', (completeTaskWithContextUpdate "t1" "1.1" none demoSubtaskState).1.tasksData.tasks.find?
        (fun t => jsNumEq t.id (jsParseInt ((jsSplitDot "1.1").headD ""))) = some p' ∧
      p'.updatedAt = "t1" ∧
      (subtaskAllDone "1.1" demoParentTask = true →
        (completeTaskWithContextUpdate "t1" "1.1" none demoSubtaskState).1.context.taskHistory =
          demoSubtaskState.context.taskHistory ++
            [subtaskUpdateEntry "t1" "1.1" none (jsParseInt ((jsSplitDot "1.1").headD "")) demoParentTask
               { id := "1.1", title := "S1", status := .pending },
             rollupEntry "t1" "1.1" (jsParseInt ((jsSplitDot "1.1").headD "")) demoParentTask] ∧
        (subtaskUpdateEntry "t1" "1.1" none (jsParseInt ((jsSplitDot "1.1").headD "")) demoParentTask
           { id := "1.1", title := "S1", status := .pending }).action = "update" ∧
        (rollupEntry "t1" "1.1" (jsParseInt ((jsSplitDot "1.1").headD "")) demoParentTask).action = "update") ∧
      (subtaskAllDone "1.1" demoParentTask = false →
        (completeTaskWithContextUpdate "t1" "1.1" none demoSubtaskState).1.context.taskHistory =
          demoSubtaskState.context.taskHistory ++
            [subtaskUpdateEntry "t1" "1.1" none (jsParseInt ((jsSplitDot "1.1").headD "")) demoParentTask
               { id := "1.1", title := "S1", status := .pending }] ∧
        (subtaskUpdateEntry "t1" "1.1" none (jsParseInt ((jsSplitDot "1.1").headD "")) demoParentTask
           { id := "1.1", title := "S1", status := .pending }).action = "update") :=
  completeSubtask_history_spec "t1" "1.1" none demoSubtaskState demoParentTask
    { id := "1.1", title := "S1", status := .pending } (by decide) (by decide) (by decide)

/-- C6 counterexample: completing the pending task 1 marks it `done` and
clears the active task, but the single history entry appended carries action
`update`, not `complete` — the task is saved as `done` before
`updateTaskStatus` reads the old status back. -/
theorem completeTask_no_complete_entry_cex :
    (completeTaskWithContextUpdate "t1" "1" none demoPlainState).1.tasksData.tasks.map
      (fun t => t.status) = [Status.done] ∧
    (completeTaskWithContextUpdate "t1" "1" none demoPlainState).1.context.taskHistory.map
      (fun e => e.action) = ["update"] ∧
    ((completeTaskWithContextUpdate "t1" "1" none demoPlainState).1.context.taskHistory.all
      (fun e => !(e.action == "complete"))) = true ∧
    (completeTaskWithContextUpdate "t1" "1" none demoPlainState).1.context.currentContext.activeTask = none := by
  refine ⟨?_, ?_, ?_, ?_⟩ <;> decide

/-- C6 amended: completing an existing task by its undotted id sets the task
to `done`, appends exactly one history entry for it — whose action is
`update` with details `done → done`, because the store was saved before the
old status was read — and clears `currentContext.activeTask` to `none`. -/
theorem completeTask_postconditions (now tid : String) (summary : Option String)
    (s : State) (task : Task)
    (hdot : jsIncludesDot tid = false)
    (hfind : s.tasksData.tasks.find? (fun t => jsNumEq t.id (jsParseInt tid)) = some task) :
    (completeTaskWithContextUpdate now tid summary s).2 =
      .okTask (getNextTask (some (completeTaskWithContextUpdate now tid summary s).1.tasksData)) ∧
    ∃ p', (completeTaskWithContextUpdate now tid summary s).1.tasksData.tasks.find?
        (fun t => jsNumEq t.id (jsParseInt tid)) = some p' ∧ p'.status = .done ∧
      (completeTaskWithContextUpdate now tid summary s).1.context.taskHistory =
        s.context.taskHistory ++ [mainDoneEntry now tid summary task] ∧
      (mainDoneEntry now tid summary task).action = "update" ∧
      (completeTaskWithContextUpdate now tid summary s).1.context.currentContext.activeTask = none := by
  have hpred : jsNumEq task.id (jsParseInt tid) = true := by
    have := List.find?_some hfind
    simpa using this
  rw [completeMain_spec now tid summary s task hdot hfind]
  refine ⟨rfl, completedTask now task, ?_, rfl, rfl, rfl, rfl⟩
  simp only [mainFinalState]
  rw [find?_updateFirst (fun t : Task => jsNumEq t.id (jsParseInt tid))
    (fun _ : Task => completedTask now task) (fun a _ => hpred), hfind]
  rfl

/-- C6 witness: the amended statement at the concrete one-task store. -/
theorem completeTask_postconditions_witness :
    (completeTaskWithContextUpdate "t1" "1" none demoPlainState).2 =
      .okTask (getNextTask (some (completeTaskWithContextUpdate "t1" "1" none demoPlainState).1.tasksData)) ∧
    ∃ p', (completeTaskWithContextUpdate "t1" "1" none demoPlainState).1.tasksData.tasks.find?
        (fun t => jsNumEq t.id (jsParseInt "1")) = some p' ∧ p'.status = .done ∧
      (completeTaskWithContextUpdate "t1" "1" none demoPlainState).1.context.taskHistory =
        demoPlainState.context.taskHistory ++ [mainDoneEntry "t1" "1" none (demoTask 1 1)] ∧
      (mainDoneEntry "t1" "1" none (demoTask 1 1)).action = "update" ∧
      (completeTaskWithContextUpdate "t1" "1" none demoPlainState).1.context.currentContext.activeTask = none :=
  completeTask_postconditions "t1" "1" none demoPlainState (demoTask 1 1)
    (by decide) (by decide)

/-- C9: `completeTask` is idempotent on an existing task: after a second
invocation the task is still `done`, and the history holds exactly the two
invocations' own entries appended to the original history — nothing else is
duplicated. -/
theorem completeTask_idempotent (now now2 tid : String)
    (summary summary2 : Option String) (s : State) (task : Task)
    (hdot : jsIncludesDot tid = false)
    (hfind : s.tasksData.tasks.find? (fun t => jsNumEq t.id (jsParseInt tid)) = some task) :
    ∃ t2 e1 e2,
      (completeTaskWithContextUpdate now2 tid summary2
          (completeTaskWithContextUpdate now tid summary s).1).1.tasksData.tasks.find?
        (fun t => jsNumEq t.id (jsParseInt tid)) = some t2 ∧
      t2.status = .done ∧
      (completeTaskWithContextUpdate now tid summary s).1.context.taskHistory =
        s.context.taskHistory ++ [e1] ∧
      (completeTaskWithContextUpdate now2 tid summary2
          (completeTaskWithContextUpdate now tid summary s).1).1.context.taskHistory =
        s.context.taskHistory ++ [e1, e2] := by
  have hpred : jsNumEq task.id (jsParseInt tid) = true := by
    have := List.find?_some hfind
    simpa using this
  rw [completeMain_spec now tid summary s task hdot hfind]
  have hfind1 : (mainFinalState now tid summary s task).tasksData.tasks.find?
      (fun t => jsNumEq t.id (jsParseInt tid)) = some (completedTask now task) := by
    simp only [mainFinalState]
    rw [find?_updateFirst (fun t : Task => jsNumEq t.id (jsParseInt tid))
      (fun _ : Task => completedTask now task) (fun a _ => hpred), hfind]
    rfl
  rw [completeMain_spec now2 tid summary2 (mainFinalState now tid summary s task)
    (completedTask now task) hdot hfind1]
  refine ⟨completedTask now2 (completedTask now task),
    mainDoneEntry now tid summary task,
    mainDoneEntry now2 tid summary2 (completedTask now task), ?_, rfl, rfl, ?_⟩
  · simp only [mainFinalState]
    rw [find?_updateFirst (fun t : Task => jsNumEq t.id (jsParseInt tid))
      (fun _ : Task => completedTask now2 (completedTask now task)) (fun a _ => hpred)]
    rw [find?_updateFirst (fun t : Task => jsNumEq t.id (jsParseInt tid))
      (fun _ : Task => completedTask now task) (fun a _ => hpred), hfind]
    rfl
  · simp only [mainFinalState, List.append_assoc, List.cons_append, List.nil_append]

/-- C9 witness: two successive completions of task 1 on the concrete store. -/
theorem completeTask_idempotent_witness :
    ∃ t2 e1 e2,
      (completeTaskWithContextUpdate "t2" "1" none
          (completeTaskWithContextUpdate "t1" "1" none demoPlainState).1).1.tasksData.tasks.find?
        (fun t => jsNumEq t.id (jsParseInt "1")) = some t2 ∧
      t2.status = .done ∧
      (completeTaskWithContextUpdate "t1" "1" none demoPlainState).1.context.taskHistory =
        demoPlainState.context.taskHistory ++ [e1] ∧
      (completeTaskWithContextUpdate "t2" "1" none
          (completeTaskWithContextUpdate "t1" "1" none demoPlainState).1).1.context.taskHistory =
        demoPlainState.context.taskHistory ++ [e1, e2] :=
  completeTask_idempotent "t1" "t2" "1" none none demoPlainState (demoTask 1 1)
    (by decide) (by decide)

/-- C4 counterexample: `startTaskExecution` in `complete.js` succeeds on a
task that is not `pending` (task 1 is `done`) and also succeeds while another
task is `in-progress` (task 1 is active, task 2 is started anyway): the
pending-only and already-active guards exist only in `copilot.js`. -/
theorem startTaskExecution_no_pending_guard_cex :
    (startTaskExecution "t1" (some "1") demoDoneState).2 =
      .started { demoTask 1 1 with status := .inProgress, updatedAt := "t1" } ∧
    (startTaskExecution "t1" (some "1") demoDoneState).1.tasksData.tasks.map
      (fun t => t.status) = [Status.inProgress] ∧
    (startTaskExecution "t1" (some "2") demoActiveState).2 =
      .started { demoTask 2 1 with status := .inProgress, updatedAt := "t1" } ∧
    (startTaskExecution "t1" (some "2") demoActiveState).1.tasksData.tasks.map
      (fun t => t.status) = [Status.inProgress, Status.inProgress] := by
  refine ⟨?_, ?_, ?_, ?_⟩ <;> decide

/-- C4 amended: the guards hold on the `copilot.js` `startNextTask` path —
a start there succeeds only on a `pending` task with no other task
`in-progress`, an unknown id fails in the merged not-found branch, and a
pending target with another active task fails with the already-active
result — while the `complete.js` `startTaskExecution` path checks only
existence and starts a task of any status. -/
theorem start_guards_spec (now tid : String) (s : State) :
    (∀ t', (startNextTask now false (some tid) s).2 = .started t' →
      ∃ t0, s.tasksData.tasks.find?
          (fun t => jsNumEq t.id (jsParseInt tid) && t.status == Status.pending) = some t0 ∧
        t0.status = .pending ∧ getCurrentTask s.tasksData = none ∧
        t' = { t0 with status := .inProgress, updatedAt := now }) ∧
    ((∀ t ∈ s.tasksData.tasks, jsNumEq t.id (jsParseInt tid) = false) →
      startNextTask now false (some tid) s = (s, .notFoundOrNotPending)) ∧
    (∀ t0 c, s.tasksData.tasks.find?
        (fun t => jsNumEq t.id (jsParseInt tid) && t.status == Status.pending) = some t0 →
      getCurrentTask s.tasksData = some c →
      startNextTask now false (some tid) s = (s, .alreadyActive c)) ∧
    (∀ t0, s.tasksData.tasks.find? (fun t => jsNumEq t.id (jsParseInt tid)) = some t0 →
      (startTaskExecution now (some tid) s).2 =
        .started { t0 with status := .inProgress, updatedAt := now }) := by
  refine ⟨?_, ?_, ?_, ?_⟩
  · intro t' h
    simp only [startNextTask, Bool.false_eq_true, if_false] at h
    cases hf : s.tasksData.tasks.find?
        (fun t => jsNumEq t.id (jsParseInt tid) && t.status == Status.pending) with
    | none => rw [hf] at h; cases h
    | some t0 =>
      rw [hf] at h
      cases hc : getCurrentTask s.tasksData with
      | some c => rw [hc] at h; cases h
      | none =>
        rw [hc] at h
        dsimp only at h
        have hmem : t0 ∈ s.tasksData.tasks := List.mem_of_find?_eq_some hf
        have hany : (s.tasksData.tasks.any (fun t => t.id == t0.id)) = true :=
          List.any_eq_true.mpr ⟨t0, hmem, by simp⟩
        rw [hany] at h
        simp only [if_true] at h
        have hpend : t0.status = Status.pending := by
          have := List.find?_some hf
          simp only [Bool.and_eq_true, beq_iff_eq] at this
          exact this.2
        exact ⟨t0, rfl, hpend, rfl, by cases h; rfl⟩
  · intro hmiss
    have hf : s.tasksData.tasks.find?
        (fun t => jsNumEq t.id (jsParseInt tid) && t.status == Status.pending) = none :=
      List.find?_eq_none.mpr (fun t ht => by rw [hmiss t ht]; simp)
    simp only [startNextTask, Bool.false_eq_true, if_false]
    rw [hf]
  · intro t0 c hf hc
    simp only [startNextTask, Bool.false_eq_true, if_false]
    rw [hf, hc]
  · intro t0 hf
    have hmem : t0 ∈ s.tasksData.tasks := List.mem_of_find?_eq_some hf
    have hany : (s.tasksData.tasks.any (fun t => t.id == t0.id)) = true :=
      List.any_eq_true.mpr ⟨t0, hmem, by simp⟩
    simp only [startTaskExecution]
    rw [hf]
    simp only [hany, if_true]

/-- C4 witness: the amended statement at concrete stores — the guarded
`copilot.js` path refuses to start pending task 2 while task 1 is active and
refuses the unknown id 99, while the unguarded `complete.js` path starts the
`done` task 1. -/
theorem start_guards_spec_witness :
    startNextTask "t1" false (some "99") demoPlainState =
      (demoPlainState, .notFoundOrNotPending) ∧
    startNextTask "t1" false (some "2") demoActiveState =
      (demoActiveState, .alreadyActive { demoTask 1 1 with status := .inProgress }) ∧
    (startTaskExecution "t1" (some "1") demoDoneState).2 =
      .started { { demoTask 1 1 with status := .done } with status := .inProgress, updatedAt := "t1" } :=
  ⟨(start_guards_spec "t1" "99" demoPlainState).2.1 (by decide),
   (start_guards_spec "t1" "2" demoActiveState).2.2.1 (demoTask 2 1)
     { demoTask 1 1 with status := .inProgress } (by decide) (by decide),
   (start_guards_spec "t1" "1" demoDoneState).2.2.2 { demoTask 1 1 with status := .done }
     (by decide)⟩

theorem taskLE_trans : ∀ a b c : Task, taskLE a b → taskLE b c → taskLE a c := by
  intro a b c hab hbc
  simp only [taskLE, decide_eq_true_eq] at *
  omega

theorem taskLE_total : ∀ a b : Task, taskLE a b || taskLE b a := by
  intro a b
  simp only [taskLE, Bool.or_eq_true, decide_eq_true_eq]
  omega

/-- C2 counterexample: over the pending priorities `[3, 1, 2, 1]` the
`copilot.js` `getNextTask` returns the priority-3 task: its comparator looks
the numeric priorities up in the `{high, medium, low}` table, always getting
`undefined - undefined = NaN`, which ECMAScript `SortCompare` coerces to `0`,
so the stable sort leaves the list untouched and the first pending task wins
even though priority-1 tasks are pending. -/
theorem copilot_getNextTask_ignores_priority_cex :
    copilotGetNextTask demoPrioStore = some (demoTask 1 3) ∧
    (demoTask 1 3).priority = 3 ∧
    ∃ u ∈ demoPrioStore.tasks, u.status = Status.pending ∧ u.priority = 1 := by
  refine ⟨?_, by decide, ⟨demoTask 2 1, by decide, by decide, by decide⟩⟩
  have h : demoPrioStore.tasks.filter (fun t => t.status == Status.pending) =
      demoPrioStore.tasks := by decide
  have hp : demoPrioStore.tasks.Pairwise (fun a b => copilotPriorityLE a b = true) := by
    decide
  simp only [copilotGetNextTask, h]
  rw [List.mergeSort_of_sorted (List.Pairwise.imp (fun hab => hab) hp)]
  decide

/-- C2 amended: the `context-tracker.js` `getNextTask` satisfies the
contract — it returns `none` exactly when no pending task exists, and
otherwise the pending task with the numerically smallest priority, ties
broken by original list order (every pending task earlier in the list has a
strictly larger priority) — while the `copilot.js` `getNextTask`, whose
comparator maps priorities through the `{high, medium, low}` table, returns
the first pending task in list order whenever the stored priorities are
numeric (every lookup is `undefined`). -/
theorem getNext_priority_spec (td : TasksData) :
    (getNextTask (some td) = none ↔ ∀ t ∈ td.tasks, ¬ t.status = Status.pending) ∧
    (∀ t, getNextTask (some td) = some t →
      t.status = Status.pending ∧ t ∈ td.tasks ∧
      (∀ u ∈ td.tasks, u.status = Status.pending → t.priority ≤ u.priority) ∧
      ∃ l₁ l₂, td.tasks.filter (fun u => u.status == Status.pending) = l₁ ++ t :: l₂ ∧
        ∀ u ∈ l₁, t.priority < u.priority) ∧
    ((∀ u ∈ td.tasks, priorityOrder (toString u.priority) = none) →
      copilotGetNextTask td = (td.tasks.filter (fun u => u.status == Status.pending)).head?) := by
  refine ⟨?_, ?_, ?_⟩
  · by_cases he : td.tasks.isEmpty = true
    · simp only [getNextTask, he, if_true]
      have : td.tasks = [] := List.isEmpty_iff.mp he
      simp [this]
    · have he' : td.tasks.isEmpty = false := by simpa using he
      by_cases hp : (td.tasks.filter (fun t => t.status == Status.pending)).isEmpty = true
      · simp only [getNextTask, he', Bool.false_eq_true, if_false, hp, if_true]
        have hnil : td.tasks.filter (fun t => t.status == Status.pending) = [] :=
          List.isEmpty_iff.mp hp
        constructor
        · intro _ t ht hpend
          have : t ∈ td.tasks.filter (fun t => t.status == Status.pending) :=
            List.mem_filter.mpr ⟨ht, by simp [hpend]⟩
          rw [hnil] at this
          cases this
        · intro _; trivial
      · have hp' : (td.tasks.filter (fun t => t.status == Status.pending)).isEmpty = false := by
          simpa using hp
        simp only [getNextTask, he', Bool.false_eq_true, if_false, hp']
        constructor
        · intro hnone
          have hms : (td.tasks.filter (fun t => t.status == Status.pending)).mergeSort taskLE = [] :=
            List.head?_eq_none_iff.mp hnone
          have hperm := List.mergeSort_perm (td.tasks.filter (fun t => t.status == Status.pending)) taskLE
          rw [hms] at hperm
          have hnil : td.tasks.filter (fun t => t.status == Status.pending) = [] :=
            hperm.symm.eq_nil
          rw [hnil] at hp'
          simp at hp'
        · intro hall
          exfalso
          have hnil : td.tasks.filter (fun t => t.status == Status.pending) = [] :=
            List.filter_eq_nil_iff.mpr (fun a ha => by simpa using hall a ha)
          rw [hnil] at hp'
          simp at hp'
  · intro t ht
    by_cases he : td.tasks.isEmpty = true
    · rw [getNextTask] at ht
      simp [he] at ht
    · have he' : td.tasks.isEmpty = false := by simpa using he
      by_cases hp : (td.tasks.filter (fun t => t.status == Status.pending)).isEmpty = true
      · rw [getNextTask] at ht
        simp [he', hp] at ht
      · have hp' : (td.tasks.filter (fun t => t.status == Status.pending)).isEmpty = false := by
          simpa using hp
        rw [getNextTask] at ht
        simp only [he', Bool.false_eq_true, if_false, hp'] at ht
        obtain ⟨hmin, l₁, l₂, hdec, hfirst⟩ :=
          head?_mergeSort_first_min taskLE taskLE_trans taskLE_total
            (td.tasks.filter (fun t => t.status == Status.pending)) t ht
        have htmem : t ∈ td.tasks.filter (fun t => t.status == Status.pending) := by
          rw [hdec]
          exact List.mem_append.mpr (Or.inr (List.mem_cons_self _ _))
        have htf := List.mem_filter.mp htmem
        have htpend : t.status = Status.pending := by simpa using htf.2
        refine ⟨htpend, htf.1, ?_, l₁, l₂, hdec, ?_⟩
        · intro u hu hup
          have humem : u ∈ td.tasks.filter (fun t => t.status == Status.pending) :=
            List.mem_filter.mpr ⟨hu, by simp [hup]⟩
          have := hmin u humem
          simpa [taskLE] using this
        · intro u hu
          have := hfirst u hu
          simp only [taskLE, decide_eq_false_iff_not] at this
          omega
  · intro hno
    have hpw : ∀ a ∈ td.tasks.filter (fun t => t.status == Status.pending),
        ∀ b ∈ td.tasks.filter (fun t => t.status == Status.pending),
        copilotPriorityLE a b = true := by
      intro a ha b hb
      have ha' := (List.mem_filter.mp ha).1
      have hb' := (List.mem_filter.mp hb).1
      simp [copilotPriorityLE, hno a ha', hno b hb', jsSub]
    have hpair := List.pairwise_of_forall_mem_list hpw
    simp only [copilotGetNextTask]
    rw [List.mergeSort_of_sorted (List.Pairwise.imp (fun hab => hab) hpair)]

/-- C2 witness: on the `[3, 1, 2, 1]` pending store the context-tracker
`getNextTask` result (the first priority-1 task, id 2) satisfies the amended
contract, and the copilot variant degenerates to first-pending. -/
theorem getNext_priority_spec_witness :
    ((demoTask 2 1).status = Status.pending ∧ demoTask 2 1 ∈ demoPrioStore.tasks ∧
      (∀ u ∈ demoPrioStore.tasks, u.status = Status.pending →
        (demoTask 2 1).priority ≤ u.priority) ∧
      ∃ l₁ l₂, demoPrioStore.tasks.filter (fun u => u.status == Status.pending) =
          l₁ ++ demoTask 2 1 :: l₂ ∧
        ∀ u ∈ l₁, (demoTask 2 1).priority < u.priority) ∧
    copilotGetNextTask demoPrioStore =
      (demoPrioStore.tasks.filter (fun u => u.status == Status.pending)).head? :=
  ⟨(getNext_priority_spec demoPrioStore).2.1 (demoTask 2 1)
     (by simp [getNextTask, List.mergeSort, taskLE, demoPrioStore, demoTask, List.filter]),
   (getNext_priority_spec demoPrioStore).2.2 (by decide)⟩

end TaskMaster
